import Mathlib

/-!
# TCPSocket: asynchronous, length-framed, compressed transport

A shallow embedding of `src/Core/TCPSocket.h` (class `TCPSocket<BASESOCKET>`).

* Machine integers are natural numbers reduced modulo `2 ^ 32` (`unsigned int`) or
  modulo `2 ^ w` (`size_t`, where `w` is the width of `size_t` on the build target).
* The asynchronous socket is a state record: the `SocketImpl` member, the handlers posted
  to the `io_service` by `send`, the asynchronous operations whose completion handler has
  not run yet, and the trace of driver notifications and stream operations.
* Completion handlers are functions on that record; `assert` is an abort when assertions
  are compiled in and nothing otherwise.
* `Packet.h`, `SocketImpl.h` and the zstd library are not part of the examined sources; the
  zstd entry points are parameters (`Codec`), the other two are modelled from the
  specification.
-/

namespace TCPSocket

/-! ## Machine integers -/

/-- Number of values of `unsigned int`. -/
def UINT_RANGE : Nat := 2 ^ 32

/-- The conversion `static_cast<unsigned int>(x)`. -/
def toUInt (x : Nat) : Nat := x % UINT_RANGE

/-- A value stored in a `size_t` of `w` bits. -/
def toSizeT (w : Nat) (x : Nat) : Nat := x % 2 ^ w

/-! ## zstd entry points (external library, taken as parameters) -/

/-- The zstd functions called by `TCPSocket`. A result `Except.error e` stands for the zstd
error number `e`, which the C interface returns as the `size_t` value `(size_t)-e`;
`Except.ok out` stands for `out` written at the start of the destination buffer and
`out.length` returned. `maxCode` is `ZSTD_error_maxCode`. -/
structure Codec where
  maxCode : Nat
  ZSTD_compressBound : Nat → Nat
  ZSTD_compress : (dstCapacity : Nat) → (src : List Nat) → (level : Nat) → Except Nat (List Nat)
  ZSTD_decompress : (dstCapacity : Nat) → (src : List Nat) → Except Nat (List Nat)

/-- The `size_t` value a zstd call returns. -/
def returnCode (w : Nat) (r : Except Nat (List Nat)) : Nat :=
  match r with
  | .ok out => toSizeT w out.length
  | .error e => toSizeT w (2 ^ w - e)

/-- The function `ZSTD_isError` of zstd: `code > (size_t)-ZSTD_error_maxCode`. -/
def ZSTD_isError (w : Nat) (maxCode : Nat) (code : Nat) : Bool :=
  decide (code > toSizeT w (2 ^ w - maxCode))

/-- The destination buffer after a zstd call: the output overwrites its first bytes. An
output longer than the buffer (the C++ call then writes past the allocation) leaves a list
longer than the capacity of the packet. -/
def writeBuffer (buf : List Nat) (r : Except Nat (List Nat)) : List Nat :=
  match r with
  | .ok out => out ++ buf.drop out.length
  | .error _ => buf

/-! ## Packet -/

/-- Modelled from the spec: `Packet.h` is absent. A packet has a type tag, opaque header
bytes and a payload buffer; `Payload_Length` is authoritative and may be smaller than the
capacity the buffer was allocated with. `Payload` lists the bytes stored from the start of
the buffer. -/
structure Packet where
  Packet_Type : Nat
  Payload_Length : Nat
  Header : List Nat
  Capacity : Nat
  Payload : List Nat
deriving DecidableEq, Repr

/-- Modelled from the spec: the constructor `Packet(type, length, std::move(header))`, which
allocates a payload buffer of `length` bytes and sets `Payload_Length` to `length`. The
bytes of the fresh buffer are taken as zero. -/
def Packet.create (type len : Nat) (header : List Nat) : Packet :=
  { Packet_Type := type, Payload_Length := len, Header := header, Capacity := len,
    Payload := List.replicate len 0 }

/-- Modelled from the spec: the constructor `Packet(type)`, the empty packet. -/
def Packet.empty (type : Nat) : Packet :=
  { Packet_Type := type, Payload_Length := 0, Header := [], Capacity := 0, Payload := [] }

/-- The payload bytes of a packet: the first `Payload_Length` bytes of its buffer. -/
def Packet.bytes (p : Packet) : List Nat := p.Payload.take p.Payload_Length

/-! ## SocketImpl -/

/-- Modelled from the spec: the wire header, `{ compressed_length, uncompressed_length,
packet_type }`. The field `UncompressedLength` is named in `TCPSocket::decompress`. -/
structure PacketHeader where
  Payload_Length : Nat
  UncompressedLength : Nat
  Packet_Type : Nat
deriving DecidableEq, Repr

/-- Modelled from the spec: the statistics snapshot, the queue depth and the cumulative
bytes before and after compression in both directions. -/
structure SocketStats where
  PacketsQueued : Nat
  BytesSentUncompressed : Nat
  BytesSentCompressed : Nat
  BytesReceivedCompressed : Nat
  BytesReceivedUncompressed : Nat
deriving DecidableEq, Repr

/-- Modelled from the spec: `SocketImpl.h` is absent. The connection state holds the
outgoing queue (each packet with its uncompressed size), the `writing` flag, the read
scratch (wire header and payload buffer), the header being written, the statistics, and
whether the lowest layer of the stream is shut down. -/
structure SocketImpl where
  OutgoingPackets : List (Packet × Nat)
  Writing : Bool
  Closed : Bool
  ReadPacketHeader : PacketHeader
  WritePacketHeader : PacketHeader
  IncomingBuffer : List Nat
  Stats : SocketStats
deriving DecidableEq, Repr

namespace SocketImpl

/-- Modelled from the spec: `SocketImpl::closed(lowest_layer)`, whether the lowest layer of
the stream is already shut down. -/
def closed (impl : SocketImpl) : Bool := impl.Closed

/-- Modelled from the spec: `SocketImpl::close(lowest_layer)`, shuts the lowest layer down. -/
def close (impl : SocketImpl) : SocketImpl := { impl with Closed := true }

/-- Modelled from the spec: `SocketImpl::writing()`. -/
def writing (impl : SocketImpl) : Bool := impl.Writing

/-- Modelled from the spec: `SocketImpl::writing(bool)`. -/
def set_writing (impl : SocketImpl) (b : Bool) : SocketImpl := { impl with Writing := b }

/-- Modelled from the spec: `SocketImpl::OutGoingBuffer_empty()`. -/
def OutGoingBuffer_empty (impl : SocketImpl) : Bool := impl.OutgoingPackets.isEmpty

/-- Modelled from the spec: `SocketImpl::AddOutgoingPacket`, appends at the back of the
FIFO queue and counts the packet in the queue depth. -/
def AddOutgoingPacket (impl : SocketImpl) (pack : Packet) (beforesize : Nat) : SocketImpl :=
  { impl with
    OutgoingPackets := impl.OutgoingPackets ++ [(pack, beforesize)]
    Stats := { impl.Stats with PacketsQueued := impl.Stats.PacketsQueued + 1 } }

/-- Modelled from the spec: `SocketImpl::GetNextWritePacket`, removes the head of the queue,
fills the wire header to write for it and marks the write chain as in flight
(`TCPSocket.h` only ever clears the flag, and `send` tests it after `AddOutgoingPacket`, so
this is where it is set). The C++ call on an empty queue is undefined; it is `none`
here. -/
def GetNextWritePacket (impl : SocketImpl) : Option (Packet × SocketImpl) :=
  match impl.OutgoingPackets with
  | [] => none
  | (pack, beforesize) :: rest =>
    some (pack,
      { impl with
        OutgoingPackets := rest
        Writing := true
        WritePacketHeader :=
          { Payload_Length := pack.Payload_Length, UncompressedLength := beforesize,
            Packet_Type := pack.Packet_Type }
        Stats := { impl.Stats with PacketsQueued := impl.Stats.PacketsQueued - 1 } })

/-- Modelled from the spec: `SocketImpl::get_ReadBufferSize`, the compressed body length
declared by the wire header just read. -/
def get_ReadBufferSize (impl : SocketImpl) : Nat := impl.ReadPacketHeader.Payload_Length

/-- Modelled from the spec: `SocketImpl::GetNextReadPacket`, the received frame as a packet:
type and length from the wire header, payload from the read buffer. -/
def GetNextReadPacket (impl : SocketImpl) : Packet :=
  { Packet_Type := impl.ReadPacketHeader.Packet_Type
    Payload_Length := impl.ReadPacketHeader.Payload_Length
    Header := []
    Capacity := impl.ReadPacketHeader.Payload_Length
    Payload := impl.IncomingBuffer }

/-- Modelled from the spec: `SocketImpl::UpdateWriteStats(p, beforesize)`, adds the original
length and the compressed length to the send counters. -/
def UpdateWriteStats (impl : SocketImpl) (p : Packet) (beforesize : Nat) : SocketImpl :=
  { impl with
    Stats := { impl.Stats with
      BytesSentUncompressed := impl.Stats.BytesSentUncompressed + beforesize
      BytesSentCompressed := impl.Stats.BytesSentCompressed + p.Payload_Length } }

/-- Modelled from the spec: `SocketImpl::UpdateReadStats()`, adds the two lengths of the wire
header just read to the receive counters. -/
def UpdateReadStats (impl : SocketImpl) : SocketImpl :=
  { impl with
    Stats := { impl.Stats with
      BytesReceivedCompressed :=
        impl.Stats.BytesReceivedCompressed + impl.ReadPacketHeader.Payload_Length
      BytesReceivedUncompressed :=
        impl.Stats.BytesReceivedUncompressed + impl.ReadPacketHeader.UncompressedLength } }

end SocketImpl

/-! ## Build parameters -/

/-- What the build fixes: the width of `size_t`, the zstd library, the value of
`PACKET_TYPES::INVALID`, `sizeof(PacketHeader)` and whether `assert` is compiled in. -/
structure Config where
  w : Nat
  Z : Codec
  INVALID : Nat
  sizeofPacketHeader : Nat
  asserts : Bool

/-! ## compress / decompress -/

/-- The packet built by `TCPSocket::compress` (lines 163-165): the capacity is the bound
converted to `unsigned int`, the compressor is given the unconverted bound as destination
size, and its `size_t` result is converted to `unsigned int`. -/
def compressPacket (cfg : Config) (packet : Packet) : Packet :=
  let maxsize := toSizeT cfg.w (cfg.Z.ZSTD_compressBound packet.Payload_Length)
  let p := Packet.create packet.Packet_Type (toUInt maxsize) packet.Header
  let r := cfg.Z.ZSTD_compress maxsize (packet.Payload.take (toUInt packet.Payload_Length)) 3
  { p with Payload_Length := toUInt (returnCode cfg.w r), Payload := writeBuffer p.Payload r }

/-- The method `TCPSocket::compress`: the compressed packet and the connection state after
`UpdateWriteStats`. -/
def compress (cfg : Config) (impl : SocketImpl) (packet : Packet) : Packet × SocketImpl :=
  let p := compressPacket cfg packet
  (p, impl.UpdateWriteStats p packet.Payload_Length)

/-- Whether the `ZSTD_compress` call of `TCPSocket::compress` writes past the end of the
payload buffer: the compressor is told that the destination holds `maxsize` bytes, the
buffer holds `static_cast<unsigned int>(maxsize)`. The C++ call then overruns the heap
allocation and `compress` returns no packet; `compressPacket` describes the call only
when this is false. -/
def compressOverruns (cfg : Config) (packet : Packet) : Bool :=
  let maxsize := toSizeT cfg.w (cfg.Z.ZSTD_compressBound packet.Payload_Length)
  match cfg.Z.ZSTD_compress maxsize (packet.Payload.take (toUInt packet.Payload_Length)) 3 with
  | .ok out => decide (toUInt maxsize < out.length)
  | .error _ => false

/-- The packet `p` of `TCPSocket::decompress` after line 172. -/
def decompressPacket (cfg : Config) (impl : SocketImpl) (packet : Packet) : Packet :=
  let p := Packet.create packet.Packet_Type impl.ReadPacketHeader.UncompressedLength packet.Header
  let r := cfg.Z.ZSTD_decompress impl.ReadPacketHeader.UncompressedLength
    (packet.Payload.take packet.Payload_Length)
  { p with Payload_Length := toUInt (returnCode cfg.w r), Payload := writeBuffer p.Payload r }

/-- The method `TCPSocket::decompress`: `ZSTD_isError` is applied to `p.Payload_Length`, an
`unsigned int` widened to `size_t`; the error branch returns the empty `INVALID` packet
and leaves the read statistics alone. -/
def decompress (cfg : Config) (impl : SocketImpl) (packet : Packet) : Packet × SocketImpl :=
  let p := decompressPacket cfg impl packet
  if ZSTD_isError cfg.w cfg.Z.maxCode p.Payload_Length then
    (Packet.empty cfg.INVALID, impl)
  else
    (p, impl.UpdateReadStats)

/-! ## The socket -/

/-- What the driver and the stream observe, in the order it happens: the driver
notifications and the operations started on the stream. -/
inductive Event where
  | OnConnect
  | OnReceive (packet : Packet)
  | OnClose
  | shutdown
  | async_connect
  | async_read_header (size : Nat)
  | async_read_body (size : Nat)
  | async_write_header (header : PacketHeader)
  | async_write_body (bytes : List Nat)
deriving DecidableEq, Repr

/-- An asynchronous operation whose completion handler has not run yet, with what the
handler captured. -/
inductive AsyncOp where
  | connect
  | readheader
  | readbody
  | writeheader (packet : Packet)
  | writebody (packet : Packet)
deriving DecidableEq, Repr

/-- The state of a `TCPSocket`: the member `_SocketImpl`, the handlers `send` posted to the
`io_service` (run one at a time, in posting order), the outstanding asynchronous
operations, and the trace of events so far. -/
structure State where
  _SocketImpl : SocketImpl
  posted : List (Packet × Nat)
  pending : List AsyncOp
  trace : List Event
deriving DecidableEq, Repr

/-- A socket right after construction. -/
def State.init : State :=
  { _SocketImpl :=
      { OutgoingPackets := [], Writing := false, Closed := false,
        ReadPacketHeader := { Payload_Length := 0, UncompressedLength := 0, Packet_Type := 0 },
        WritePacketHeader := { Payload_Length := 0, UncompressedLength := 0, Packet_Type := 0 },
        IncomingBuffer := [],
        Stats := { PacketsQueued := 0, BytesSentUncompressed := 0, BytesSentCompressed := 0,
                   BytesReceivedCompressed := 0, BytesReceivedUncompressed := 0 } },
    posted := [], pending := [], trace := [] }

/-- Appends an event to the trace. -/
def emit (s : State) (e : Event) : State := { s with trace := s.trace ++ [e] }

/-- Records an asynchronous operation as outstanding. -/
def start (s : State) (op : AsyncOp) : State := { s with pending := s.pending ++ [op] }

/-- The method `TCPSocket::closed` (line 55). -/
def closed (s : State) : Bool := s._SocketImpl.closed

/-- The method `TCPSocket::close` (lines 58-62). -/
def close (s : State) : State :=
  if s._SocketImpl.closed then s
  else
    let s1 := emit s Event.OnClose
    emit { s1 with _SocketImpl := s1._SocketImpl.close } Event.shutdown

/-- The method `readexpire_from_now` (line 182): its first statement is `return`. -/
def readexpire_from_now (s : State) (_seconds : Int) : State := s

/-- The method `writeexpire_from_now` (line 192): its first statement is `return`. -/
def writeexpire_from_now (s : State) (_seconds : Int) : State := s

/-- The method `TCPSocket::readheader` up to the start of the asynchronous read. -/
def readheader (cfg : Config) (s : State) : State :=
  let s := readexpire_from_now s 30
  start (emit s (Event.async_read_header cfg.sizeofPacketHeader)) AsyncOp.readheader

/-- The method `TCPSocket::readbody` up to the start of the asynchronous read into the
buffer of `get_ReadBuffer`, of `get_ReadBufferSize` bytes. -/
def readbody (s : State) : State :=
  let s := readexpire_from_now s 30
  let size := s._SocketImpl.get_ReadBufferSize
  start (emit s (Event.async_read_body size)) AsyncOp.readbody

/-- The method `TCPSocket::writeheader` up to the start of the asynchronous write of
`_SocketImpl.WritePacketHeader`. -/
def writeheader (s : State) (packet : Packet) : State :=
  start (emit s (Event.async_write_header s._SocketImpl.WritePacketHeader))
    (AsyncOp.writeheader packet)

/-- The method `TCPSocket::writebody` up to the start of the asynchronous write of the first
`Payload_Length` bytes of the payload. -/
def writebody (s : State) (packet : Packet) : State :=
  start (emit s (Event.async_write_body packet.bytes)) (AsyncOp.writebody packet)

/-- The method `TCPSocket::handshake` (lines 98-102). -/
def handshake (cfg : Config) (s : State) : State :=
  readheader cfg (emit s Event.OnConnect)

/-- The method `TCPSocket::connect` (lines 66-91) up to its return. `host` and `port` are
`none` for `nullptr`; `resolves` tells whether `resolver.resolve` returns (otherwise it
throws and the `catch (...)` block runs). -/
def connect (cfg : Config) (s : State) (host port : Option String) (resolves : Bool) : State :=
  if host.isNone && port.isNone then handshake cfg s
  else if resolves then start (emit s Event.async_connect) AsyncOp.connect
  else close s

/-- The completion handler of `async_connect` (lines 77-84): the error code is not read. -/
def on_connect (cfg : Config) (s : State) (_ec : Nat) : State :=
  if !closed s then readheader cfg (emit s Event.OnConnect)
  else close s

/-- The part of `TCPSocket::send` that runs in the caller (lines 41-44 and the `post`):
`compress`, then the handler is queued on the `io_service`. -/
def send (cfg : Config) (s : State) (pack : Packet) : State :=
  let r := compress cfg s._SocketImpl pack
  let beforesize := pack.Payload_Length
  { s with _SocketImpl := r.2, posted := s.posted ++ [(r.1, beforesize)] }

/-- The handler `TCPSocket::send` posts (lines 45-52). -/
def send_posted (s : State) (compack : Packet) (beforesize : Nat) : Option State :=
  let s := { s with _SocketImpl := s._SocketImpl.AddOutgoingPacket compack beforesize }
  if !s._SocketImpl.writing then
    let s := writeexpire_from_now s 30
    match s._SocketImpl.GetNextWritePacket with
    | none => none
    | some (packet, impl) => some (writeheader { s with _SocketImpl := impl } packet)
  else some s

/-- The statement `assert(c)`: aborts when assertions are compiled in and `c` is false. -/
def assert (cfg : Config) (c : Bool) (s : State) : Option State :=
  if cfg.asserts && !c then none else some s

/-- The completion handler of the header read (lines 107-113). `header` is what the read
left in `_SocketImpl.ReadPacketHeader`. -/
def on_readheader (cfg : Config) (s : State) (ec len : Nat) (header : PacketHeader) :
    Option State :=
  let s := { s with _SocketImpl := { s._SocketImpl with ReadPacketHeader := header } }
  if ec = 0 && !closed s then
    (assert cfg (len = cfg.sizeofPacketHeader) s).map readbody
  else some (close s)

/-- The completion handler of the body read (lines 121-128). `data` is what the read left
in the read buffer. -/
def on_readbody (cfg : Config) (s : State) (ec len : Nat) (data : List Nat) : Option State :=
  let s := { s with _SocketImpl := { s._SocketImpl with IncomingBuffer := data } }
  if ec = 0 && !closed s then
    (assert cfg (len = s._SocketImpl.get_ReadBufferSize) s).map fun s =>
      let r := decompress cfg s._SocketImpl s._SocketImpl.GetNextReadPacket
      readheader cfg (emit { s with _SocketImpl := r.2 } (Event.OnReceive r.1))
  else some (close s)

/-- The completion handler of the header write (lines 133-140). -/
def on_writeheader (cfg : Config) (s : State) (packet : Packet) (ec byteswritten : Nat) :
    Option State :=
  if ec = 0 && !closed s then
    (assert cfg (byteswritten = cfg.sizeofPacketHeader) s).map fun s => writebody s packet
  else some (close s)

/-- The completion handler of the body write (lines 145-158). -/
def on_writebody (cfg : Config) (s : State) (packet : Packet) (ec byteswritten : Nat) :
    Option State :=
  if ec = 0 && !s._SocketImpl.closed then
    (assert cfg (byteswritten = packet.Payload_Length) s).bind fun s =>
      if !s._SocketImpl.OutGoingBuffer_empty then
        match s._SocketImpl.GetNextWritePacket with
        | none => none
        | some (next, impl) =>
          some (writeexpire_from_now (writeheader { s with _SocketImpl := impl } next) 30)
      else
        some (writeexpire_from_now { s with _SocketImpl := s._SocketImpl.set_writing false } 30)
  else some (close s)

/-! ## Scheduling -/

/-- What `boost::asio::async_read` guarantees of the completion of a read into a buffer of
`requested` bytes: the operation ends when the buffer is full or with an error, so a
completion without an error code reports the full count. -/
def AsyncReadCompletion (ec len requested : Nat) : Prop := ec = 0 → len = requested

/-- What can happen to a socket: calls from the application, the `io_service` running the
oldest posted handler, and the completion of an outstanding operation with the error code
and byte count the stream reports. -/
inductive Action where
  | send (pack : Packet)
  | run_posted
  | close
  | connect (host port : Option String) (resolves : Bool)
  | complete_connect (ec : Nat)
  | complete_readheader (ec len : Nat) (header : PacketHeader)
  | complete_readbody (ec len : Nat) (data : List Nat)
  | complete_writeheader (packet : Packet) (ec byteswritten : Nat)
  | complete_writebody (packet : Packet) (ec byteswritten : Nat)

/-- Takes an outstanding operation off the list; `none` when it is not outstanding. -/
def complete (s : State) (op : AsyncOp) : Option State :=
  if op ∈ s.pending then some { s with pending := s.pending.erase op } else none

/-- One step of the socket; `none` when the action is not enabled (no posted handler, the
operation is not outstanding) or an assertion aborts. -/
def step (cfg : Config) (s : State) : Action → Option State
  | .send pack => some (send cfg s pack)
  | .run_posted =>
    match s.posted with
    | [] => none
    | (compack, beforesize) :: rest => send_posted { s with posted := rest } compack beforesize
  | .close => some (close s)
  | .connect host port resolves => some (connect cfg s host port resolves)
  | .complete_connect ec => (complete s AsyncOp.connect).map fun s => on_connect cfg s ec
  | .complete_readheader ec len header =>
    (complete s AsyncOp.readheader).bind fun s => on_readheader cfg s ec len header
  | .complete_readbody ec len data =>
    (complete s AsyncOp.readbody).bind fun s => on_readbody cfg s ec len data
  | .complete_writeheader packet ec n =>
    (complete s (AsyncOp.writeheader packet)).bind fun s => on_writeheader cfg s packet ec n
  | .complete_writebody packet ec n =>
    (complete s (AsyncOp.writebody packet)).bind fun s => on_writebody cfg s packet ec n

/-- Runs a schedule from a state. -/
def run (cfg : Config) (s : State) : List Action → Option State
  | [] => some s
  | a :: rest => (step cfg s a).bind fun s => run cfg s rest

/-- The states a fresh socket can be in. -/
def Reachable (cfg : Config) (s : State) : Prop := ∃ acts, run cfg State.init acts = some s

/-! ## Concrete inputs -/

/-- The bound `ZSTD_COMPRESSBOUND` of `zstd.h`. -/
def zstdBound (n : Nat) : Nat :=
  n + n / 256 + (if n < 131072 then (131072 - n) / 2048 else 0)

/-- A codec that stores the input behind a one-byte marker `0`; it reports
`dstSize_tooSmall` (70) when the destination is too small and `corruption_detected` (20)
when the marker is missing. -/
def storedCodec : Codec :=
  { maxCode := 120
    ZSTD_compressBound := zstdBound
    ZSTD_compress := fun dstCapacity src _ =>
      if src.length + 1 ≤ dstCapacity then .ok (0 :: src) else .error 70
    ZSTD_decompress := fun dstCapacity src =>
      match src with
      | 0 :: rest => if rest.length ≤ dstCapacity then .ok rest else .error 70
      | _ => .error 20 }

/-- A build with a 64-bit `size_t` and assertions compiled out. -/
def cfg64 : Config :=
  { w := 64, Z := storedCodec, INVALID := 0, sizeofPacketHeader := 12, asserts := false }

/-- A build with a 32-bit `size_t` and assertions compiled out. -/
def cfg32 : Config :=
  { w := 32, Z := storedCodec, INVALID := 0, sizeofPacketHeader := 12, asserts := false }

/-- A packet of type 5 with header bytes `[7]` and payload `[1, 2, 3]`. -/
def packetA : Packet :=
  { Packet_Type := 5, Payload_Length := 3, Header := [7], Capacity := 3, Payload := [1, 2, 3] }

/-- A packet of type 6 with payload `[4, 5]`. -/
def packetB : Packet :=
  { Packet_Type := 6, Payload_Length := 2, Header := [], Capacity := 2, Payload := [4, 5] }

/-- A packet of type 7 with payload `[6]`. -/
def packetC : Packet :=
  { Packet_Type := 7, Payload_Length := 1, Header := [8, 9], Capacity := 1, Payload := [6] }

/-- The connection state after a frame arrived whose wire header is `header` and whose
body is `data`. -/
def received (header : PacketHeader) (data : List Nat) : SocketImpl :=
  { State.init._SocketImpl with ReadPacketHeader := header, IncomingBuffer := data }

/-- A received frame that declares 20 uncompressed bytes and whose 3 body bytes are not a
compressed payload. -/
def corruptFrame : SocketImpl :=
  received { Payload_Length := 3, UncompressedLength := 20, Packet_Type := 5 } [9, 9, 9]

/-- A host name that does not resolve or does not accept connections. -/
def badHost : Option String := some "bad.invalid"

/-- A port given as text. -/
def somePort : Option String := some "9999"

/-- The events `close` adds to the trace of a socket. -/
def closeEvents (s : State) : List Event :=
  if closed s then [] else [Event.OnClose, Event.shutdown]

/-- The wire header of a frame of 4 body bytes for 3 uncompressed bytes of type 5. -/
def headerA : PacketHeader := { Payload_Length := 4, UncompressedLength := 3, Packet_Type := 5 }

/-- The compressed form of `packetA` on the 64-bit build. -/
def compA : Packet := compressPacket cfg64 packetA

/-- The compressed form of `packetB` on the 64-bit build. -/
def compB : Packet := compressPacket cfg64 packetB

/-- The compressed form of `packetC` on the 64-bit build. -/
def compC : Packet := compressPacket cfg64 packetC

/-- Three `send` calls interleaved with the posted handlers and the write completions, all
writes succeeding. -/
def schedule3 : List Action :=
  [ .send packetA, .send packetB, .run_posted, .send packetC,
    .complete_writeheader compA 0 12, .run_posted, .complete_writebody compA 0 4,
    .run_posted, .complete_writeheader compB 0 12, .complete_writebody compB 0 3,
    .complete_writeheader compC 0 12, .complete_writebody compC 0 2 ]

/-- The state after `schedule3`. -/
def quiescent3 : State := (run cfg64 State.init schedule3).getD State.init

/-- A send whose header write is outstanding. -/
def scheduleInFlight : List Action := [ .send packetA, .run_posted ]

/-- The state after `scheduleInFlight`. -/
def inFlight : State := (run cfg64 State.init scheduleInFlight).getD State.init

/-- A send whose header write fails with error code 5. -/
def scheduleWriteFails : List Action :=
  [ .send packetA, .run_posted, .complete_writeheader compA 5 0 ]

/-- A passive connect: the header read is outstanding. -/
def readingHeader : State := (run cfg64 State.init [.connect none none true]).getD State.init

/-- A passive connect and a header read that completes: the body read is outstanding. -/
def readingBody : State :=
  (run cfg64 State.init
    [.connect none none true, .complete_readheader 0 12 headerA]).getD State.init

/-- A socket closed by the application while its header read is outstanding. -/
def closedReading : State :=
  (run cfg64 State.init [.connect none none true, .close]).getD State.init

/-- The state after the header read of `closedReading` completes without error. -/
def afterLateRead : State :=
  (step cfg64 closedReading (.complete_readheader 0 12 headerA)).getD State.init

/-! ## Observations used in the statements -/

/-- Whether an outstanding operation is a write on the stream. -/
def AsyncOp.isWrite : AsyncOp → Bool
  | .writeheader _ => true
  | .writebody _ => true
  | _ => false

/-- The outstanding write operations of a socket. -/
def writes (s : State) : List AsyncOp := s.pending.filter AsyncOp.isWrite

/-- Whether an event is the start of a write on the stream. -/
def Event.isWrite : Event → Bool
  | .async_write_header _ => true
  | .async_write_body _ => true
  | _ => false

/-- The writes started on the stream so far, in order. -/
def wire (s : State) : List Event := s.trace.filter Event.isWrite

/-- The wire header `GetNextWritePacket` fills for a queue entry. -/
def headerOf (entry : Packet × Nat) : PacketHeader :=
  { Payload_Length := entry.1.Payload_Length, UncompressedLength := entry.2,
    Packet_Type := entry.1.Packet_Type }

/-- The two writes of a queue entry: its wire header, then its payload bytes. -/
def frame (entry : Packet × Nat) : List Event :=
  [Event.async_write_header (headerOf entry), Event.async_write_body entry.1.bytes]

/-- The write that still has to follow an outstanding one: the body after a header. -/
def AsyncOp.owed : AsyncOp → List Event
  | .writeheader packet => [Event.async_write_body packet.bytes]
  | _ => []

/-- The writes a socket still has to start: the body of the frame in flight, the frames of
the outgoing queue, and the frames of the handlers not run yet. -/
def owed (s : State) : List Event :=
  (writes s).flatMap AsyncOp.owed ++ s._SocketImpl.OutgoingPackets.flatMap frame
    ++ s.posted.flatMap frame

/-- The queue entry `send` makes of a packet: the compressed packet and the original
length. -/
def entry (cfg : Config) (pack : Packet) : Packet × Nat :=
  (compressPacket cfg pack, pack.Payload_Length)

/-- The queue entries `send` makes of the packets passed to it in a schedule, in call
order. -/
def sent (cfg : Config) : List Action → List (Packet × Nat)
  | [] => []
  | .send pack :: rest => entry cfg pack :: sent cfg rest
  | _ :: rest => sent cfg rest

/-- The schedule that sends the packets one after the other, each `send` followed by its
posted handler and the successful completions of its header write and body write. -/
def sequential (cfg : Config) (ps : List Packet) : List Action :=
  ps.flatMap fun pack =>
    [ .send pack, .run_posted,
      .complete_writeheader (compressPacket cfg pack) 0 cfg.sizeofPacketHeader,
      .complete_writebody (compressPacket cfg pack) 0 (compressPacket cfg pack).Payload_Length ]

/-- An open socket with nothing to write: no posted handler, no outstanding write, the
queue empty and `writing` clear. -/
structure Idle (s : State) : Prop where
  open_ : s._SocketImpl.Closed = false
  posted_nil : s.posted = []
  writes_nil : writes s = []
  not_writing : s._SocketImpl.Writing = false
  queue_nil : s._SocketImpl.OutgoingPackets = []

/-- The invariant of the write chain and of the close notification. -/
structure Inv (s : State) : Prop where
  one : (writes s).length ≤ 1
  flag : writes s ≠ [] → s._SocketImpl.Writing = true
  chain : s._SocketImpl.Closed = false → s._SocketImpl.Writing = true → writes s ≠ []
  idle : s._SocketImpl.Writing = false → s._SocketImpl.OutgoingPackets = []
  notified : s._SocketImpl.Closed = true → Event.OnClose ∈ s.trace

/-- What a step leaves of the write side of a socket: the new outgoing queue, `writing`
flag, closed flag, posted handlers and outstanding writes, and the events it appends. -/
structure Upd (s s' : State) (queue : List (Packet × Nat)) (writing closed : Bool)
    (posted : List (Packet × Nat)) (outstanding : List AsyncOp) (events : List Event) :
    Prop where
  queue_eq : s'._SocketImpl.OutgoingPackets = queue
  writing_eq : s'._SocketImpl.Writing = writing
  closed_eq : s'._SocketImpl.Closed = closed
  posted_eq : s'.posted = posted
  writes_eq : writes s' = outstanding
  trace_eq : s'.trace = s.trace ++ events

/-- The effect of one step on the write side of a socket, by cases on what the code does. -/
inductive Effect (cfg : Config) (s s' : State) : Action → Prop where
  | send (pack : Packet) :
    Upd s s' s._SocketImpl.OutgoingPackets s._SocketImpl.Writing s._SocketImpl.Closed
      (s.posted ++ [entry cfg pack]) (writes s) [] →
    Effect cfg s s' (.send pack)
  | enqueue (e : Packet × Nat) (rest : List (Packet × Nat)) :
    s.posted = e :: rest → s._SocketImpl.Writing = true →
    Upd s s' (s._SocketImpl.OutgoingPackets ++ [e]) true s._SocketImpl.Closed rest
      (writes s) [] →
    Effect cfg s s' .run_posted
  | start_chain (e : Packet × Nat) (rest : List (Packet × Nat)) (h : Packet × Nat)
      (t : List (Packet × Nat)) :
    s.posted = e :: rest → s._SocketImpl.Writing = false →
    s._SocketImpl.OutgoingPackets ++ [e] = h :: t →
    Upd s s' t true s._SocketImpl.Closed rest (writes s ++ [AsyncOp.writeheader h.1])
      [Event.async_write_header (headerOf h)] →
    Effect cfg s s' .run_posted
  | closing (a : Action) (outstanding : List AsyncOp) :
    (∀ pack, a ≠ .send pack) → a ≠ .run_posted →
    outstanding.Sublist (writes s) →
    Upd s s' s._SocketImpl.OutgoingPackets s._SocketImpl.Writing true s.posted outstanding
      (closeEvents s) →
    Effect cfg s s' a
  | connect_call (host port : Option String) (resolves : Bool) (events : List Event) :
    (∀ e ∈ events, e.isWrite = false ∧ e ≠ Event.OnClose) →
    Upd s s' s._SocketImpl.OutgoingPackets s._SocketImpl.Writing s._SocketImpl.Closed s.posted
      (writes s) events →
    Effect cfg s s' (.connect host port resolves)
  | read_progress (a : Action) (events : List Event) :
    (∀ pack, a ≠ .send pack) → a ≠ .run_posted → (∀ host port r, a ≠ .connect host port r) →
    s._SocketImpl.Closed = false →
    (∀ e ∈ events, e.isWrite = false ∧ e ≠ Event.OnClose) →
    Upd s s' s._SocketImpl.OutgoingPackets s._SocketImpl.Writing false s.posted
      (writes s) events →
    Effect cfg s s' a
  | header_written (packet : Packet) (byteswritten : Nat) :
    AsyncOp.writeheader packet ∈ s.pending → s._SocketImpl.Closed = false →
    Upd s s' s._SocketImpl.OutgoingPackets s._SocketImpl.Writing false s.posted
      ((s.pending.erase (AsyncOp.writeheader packet)).filter AsyncOp.isWrite
        ++ [AsyncOp.writebody packet])
      [Event.async_write_body packet.bytes] →
    Effect cfg s s' (.complete_writeheader packet 0 byteswritten)
  | body_written_next (packet : Packet) (byteswritten : Nat) (h : Packet × Nat)
      (t : List (Packet × Nat)) :
    AsyncOp.writebody packet ∈ s.pending → s._SocketImpl.Closed = false →
    s._SocketImpl.OutgoingPackets = h :: t →
    Upd s s' t true false s.posted
      ((s.pending.erase (AsyncOp.writebody packet)).filter AsyncOp.isWrite
        ++ [AsyncOp.writeheader h.1])
      [Event.async_write_header (headerOf h)] →
    Effect cfg s s' (.complete_writebody packet 0 byteswritten)
  | body_written_idle (packet : Packet) (byteswritten : Nat) :
    AsyncOp.writebody packet ∈ s.pending → s._SocketImpl.Closed = false →
    s._SocketImpl.OutgoingPackets = [] →
    Upd s s' [] false false s.posted
      ((s.pending.erase (AsyncOp.writebody packet)).filter AsyncOp.isWrite) [] →
    Effect cfg s s' (.complete_writebody packet 0 byteswritten)

/-! ## Theorems -/

theorem compressPacket_capacity (cfg : Config) (packet : Packet) :
    (compressPacket cfg packet).Capacity =
      toUInt (toSizeT cfg.w (cfg.Z.ZSTD_compressBound packet.Payload_Length)) := rfl

theorem compressOverruns_iff (cfg : Config) (P : Packet) (c : List Nat)
    (hcomp : cfg.Z.ZSTD_compress (toSizeT cfg.w (cfg.Z.ZSTD_compressBound P.Payload_Length))
      (P.Payload.take (toUInt P.Payload_Length)) 3 = .ok c) :
    compressOverruns cfg P = false ↔ c.length ≤ (compressPacket cfg P).Capacity := by
  rw [compressPacket_capacity]
  simp only [compressOverruns, hcomp, decide_eq_false_iff_not, not_lt]

theorem decompress_error_undetected_64 (cfg : Config) (impl : SocketImpl) (packet : Packet)
    (hw : cfg.w = 64) (hpos : 0 < cfg.Z.maxCode) (hmax : cfg.Z.maxCode ≤ 2 ^ 32) :
    decompress cfg impl packet = (decompressPacket cfg impl packet, impl.UpdateReadStats) := by
  have hlt : (decompressPacket cfg impl packet).Payload_Length < 2 ^ 32 := by
    show toUInt _ < 2 ^ 32
    unfold toUInt UINT_RANGE
    exact Nat.mod_lt _ (by decide)
  have hnot : ZSTD_isError cfg.w cfg.Z.maxCode (decompressPacket cfg impl packet).Payload_Length
      = false := by
    unfold ZSTD_isError toSizeT
    rw [hw, decide_eq_false_iff_not, Nat.mod_eq_of_lt (by omega)]
    have h64 : (2 : Nat) ^ 64 = 18446744073709551616 := by decide
    have h32 : (2 : Nat) ^ 32 = 4294967296 := by decide
    rw [h64]
    rw [h32] at hlt hmax
    omega
  unfold decompress
  simp only [hnot]
  rfl

theorem decompress_error_detected_32 (cfg : Config) (impl : SocketImpl) (packet : Packet)
    (e : Nat) (hw : cfg.w = 32) (hpos : 0 < e) (hmax : e < cfg.Z.maxCode)
    (hcap : cfg.Z.maxCode ≤ 2 ^ 32)
    (herr : cfg.Z.ZSTD_decompress impl.ReadPacketHeader.UncompressedLength packet.bytes
      = .error e) :
    decompress cfg impl packet = (Packet.empty cfg.INVALID, impl) := by
  have hlen : (decompressPacket cfg impl packet).Payload_Length = 2 ^ 32 - e := by
    unfold Packet.bytes at herr
    simp only [decompressPacket, herr, returnCode, toSizeT, toUInt, UINT_RANGE, hw]
    rw [Nat.mod_eq_of_lt (by omega), Nat.mod_eq_of_lt (by omega)]
  have hyes : ZSTD_isError cfg.w cfg.Z.maxCode (decompressPacket cfg impl packet).Payload_Length
      = true := by
    unfold ZSTD_isError toSizeT
    rw [hw, hlen, decide_eq_true_iff, Nat.mod_eq_of_lt (by omega)]
    omega
  unfold decompress
  simp only [hyes]
  rfl

/-- C2: on a 64-bit build a frame whose body the decompressor rejects with
`corruption_detected` is not turned into the `INVALID` packet: `decompress` returns a packet
of the received type with `Payload_Length = 2 ^ 32 - 20` and updates the read statistics.
On a 32-bit build the same frame gives the `INVALID` packet and leaves the statistics. -/
theorem decompress_corrupt_frame_not_invalid :
    cfg64.Z.ZSTD_decompress corruptFrame.ReadPacketHeader.UncompressedLength
      corruptFrame.GetNextReadPacket.bytes = .error 20 ∧
    ZSTD_isError cfg64.w cfg64.Z.maxCode (returnCode cfg64.w (.error 20)) = true ∧
    decompress cfg64 corruptFrame corruptFrame.GetNextReadPacket =
      ({ Packet_Type := 5, Payload_Length := 4294967276, Header := [], Capacity := 20,
         Payload := List.replicate 20 0 }, corruptFrame.UpdateReadStats) ∧
    (decompress cfg64 corruptFrame corruptFrame.GetNextReadPacket).1
      ≠ Packet.empty cfg64.INVALID ∧
    (decompress cfg64 corruptFrame corruptFrame.GetNextReadPacket).2.Stats
      ≠ corruptFrame.Stats ∧
    decompress cfg32 corruptFrame corruptFrame.GetNextReadPacket
      = (Packet.empty cfg32.INVALID, corruptFrame) := by
  refine ⟨rfl, by decide, by decide, by decide, by decide, by decide⟩

theorem close_of_closed (s : State) (h : closed s = true) : close s = s := by
  unfold closed at h
  simp [close, h]

theorem close_trace (s : State) : (close s).trace = s.trace ++ closeEvents s := by
  unfold close closeEvents closed
  cases h : s._SocketImpl.closed <;> simp [emit]

theorem closed_close (s : State) : closed (close s) = true := by
  unfold close closed
  cases h : s._SocketImpl.closed
  · simp [emit, SocketImpl.close, SocketImpl.closed]
  · simp [h]

theorem close_pending (s : State) : (close s).pending = s.pending := by
  unfold close
  cases h : s._SocketImpl.closed <;> simp [emit]

theorem close_posted (s : State) : (close s).posted = s.posted := by
  unfold close
  cases h : s._SocketImpl.closed <;> simp [emit]

/-- C3: `close()` twice is `close()` once; the first call appends `OnClose` and then the
shutdown of the lowest layer to the trace when the socket was open and nothing when it
was closed, so two calls notify the driver once for an open socket and never for a closed
one, and a `close()` on a closed socket leaves the state as it is. -/
theorem close_idempotent (s : State) :
    close (close s) = close s ∧
    closed (close s) = true ∧
    (close s).trace = s.trace ++ (if closed s then [] else [Event.OnClose, Event.shutdown]) ∧
    (close (close s)).trace.count Event.OnClose
      = s.trace.count Event.OnClose + (if closed s then 0 else 1) ∧
    (if closed s then close s = s else close s ≠ s) := by
  have h2 : close (close s) = close s := close_of_closed _ (closed_close s)
  refine ⟨h2, closed_close s, close_trace s, ?_, ?_⟩
  · rw [h2, close_trace]
    unfold closeEvents
    cases h : closed s <;> simp [List.count_append, List.count_cons]
  · cases h : closed s
    · simp only [Bool.false_eq_true, if_false]
      intro hEq
      have := closed_close s
      rw [hEq, h] at this
      exact Bool.false_ne_true this
    · simp only [if_true]
      exact close_of_closed s h

/-! ### connect -/

/-- C6: an active connect whose asynchronous attempt completes with an error code `ec` on a
socket that is still open notifies `OnConnect` and starts the header read; the driver
gets no `OnClose`. When resolution throws, the driver gets `OnClose` only. -/
theorem connect_error_code_ignored (ec : Nat) :
    (run cfg64 State.init
        [Action.connect badHost somePort true, Action.complete_connect ec]).map State.trace
      = some [Event.async_connect, Event.OnConnect, Event.async_read_header 12] ∧
    (run cfg64 State.init [Action.connect badHost somePort false]).map State.trace
      = some [Event.OnClose, Event.shutdown] := by
  constructor <;> rfl

/-! ### read completions -/

theorem on_readheader_error (cfg : Config) (s : State) (ec len : Nat) (header : PacketHeader)
    (hec : ec ≠ 0) :
    ∃ s', on_readheader cfg s ec len header = some s' ∧ closed s' = true ∧
      s'.trace = s.trace ++ closeEvents s ∧ s'.pending = s.pending ∧ s'.posted = s.posted := by
  refine ⟨close { s with _SocketImpl := { s._SocketImpl with ReadPacketHeader := header } },
    ?_, closed_close _, ?_, close_pending _, close_posted _⟩
  · unfold on_readheader
    simp [hec]
  · rw [close_trace]
    rfl

theorem on_readbody_error (cfg : Config) (s : State) (ec len : Nat) (data : List Nat)
    (hec : ec ≠ 0) :
    ∃ s', on_readbody cfg s ec len data = some s' ∧ closed s' = true ∧
      s'.trace = s.trace ++ closeEvents s ∧ s'.pending = s.pending ∧ s'.posted = s.posted := by
  refine ⟨close { s with _SocketImpl := { s._SocketImpl with IncomingBuffer := data } },
    ?_, closed_close _, ?_, close_pending _, close_posted _⟩
  · unfold on_readbody
    simp [hec]
  · rw [close_trace]
    rfl

/-! ### send -/

/-- C10 (amended): the part of `send` that runs in the caller leaves the outgoing queue, the
`writing` flag, the read scratch, the header being written, the closed flag, the queue
depth, the receive counters, the outstanding operations and the trace as they are; it adds
the original and the compressed length to the send counters (`UpdateWriteStats` in
`compress`) and queues the handler, which is where the queue and the flag change. -/
theorem send_frame (cfg : Config) (s : State) (pack : Packet) :
    (send cfg s pack)._SocketImpl.OutgoingPackets = s._SocketImpl.OutgoingPackets ∧
    (send cfg s pack)._SocketImpl.Writing = s._SocketImpl.Writing ∧
    (send cfg s pack)._SocketImpl.ReadPacketHeader = s._SocketImpl.ReadPacketHeader ∧
    (send cfg s pack)._SocketImpl.IncomingBuffer = s._SocketImpl.IncomingBuffer ∧
    (send cfg s pack)._SocketImpl.WritePacketHeader = s._SocketImpl.WritePacketHeader ∧
    (send cfg s pack)._SocketImpl.Closed = s._SocketImpl.Closed ∧
    (send cfg s pack)._SocketImpl.Stats.PacketsQueued = s._SocketImpl.Stats.PacketsQueued ∧
    (send cfg s pack)._SocketImpl.Stats.BytesReceivedCompressed
      = s._SocketImpl.Stats.BytesReceivedCompressed ∧
    (send cfg s pack)._SocketImpl.Stats.BytesReceivedUncompressed
      = s._SocketImpl.Stats.BytesReceivedUncompressed ∧
    (send cfg s pack)._SocketImpl.Stats.BytesSentUncompressed
      = s._SocketImpl.Stats.BytesSentUncompressed + pack.Payload_Length ∧
    (send cfg s pack)._SocketImpl.Stats.BytesSentCompressed
      = s._SocketImpl.Stats.BytesSentCompressed + (compressPacket cfg pack).Payload_Length ∧
    (send cfg s pack).pending = s.pending ∧
    (send cfg s pack).trace = s.trace ∧
    (send cfg s pack).posted = s.posted ++ [entry cfg pack] := by
  refine ⟨rfl, rfl, rfl, rfl, rfl, rfl, rfl, rfl, rfl, rfl, rfl, rfl, rfl, rfl⟩

/-- C10 (as stated) fails: `send` of a three-byte packet changes the statistics counters
before the posted handler has run. -/
theorem send_changes_stats :
    (send cfg64 State.init packetA)._SocketImpl.Stats ≠ State.init._SocketImpl.Stats ∧
    (send cfg64 State.init packetA)._SocketImpl.Stats.BytesSentUncompressed = 3 ∧
    (send cfg64 State.init packetA)._SocketImpl.Stats.BytesSentCompressed = 4 ∧
    (send cfg64 State.init packetA).posted.length = 1 := by
  refine ⟨by decide, by decide, by decide, by decide⟩

/-! ### The write chain -/

theorem close_eq (s : State) :
    close s = if s._SocketImpl.Closed then s else
      { s with _SocketImpl := { s._SocketImpl with Closed := true },
               trace := s.trace ++ [Event.OnClose, Event.shutdown] } := by
  unfold close
  cases h : s._SocketImpl.Closed <;> simp [SocketImpl.closed, h, emit, SocketImpl.close]

theorem filter_erase_of_not {op : AsyncOp} (l : List AsyncOp) (h : op.isWrite = false) :
    (l.erase op).filter AsyncOp.isWrite = l.filter AsyncOp.isWrite := by
  induction l with
  | nil => rfl
  | cons x t ih =>
    rw [List.erase_cons]
    by_cases hx : x = op
    · subst hx
      simp [h]
    · have : (x == op) = false := by simpa using hx
      simp only [this, Bool.false_eq_true, if_false, List.filter_cons, ih]

theorem filter_erase_of_write (l : List AsyncOp) (op : AsyncOp) (h : op.isWrite = true)
    (hmem : op ∈ l) (hone : (l.filter AsyncOp.isWrite).length ≤ 1) :
    (l.erase op).filter AsyncOp.isWrite = [] ∧ l.filter AsyncOp.isWrite = [op] := by
  induction l with
  | nil => simp at hmem
  | cons x t ih =>
    rw [List.erase_cons]
    by_cases hx : x = op
    · subst hx
      simp only [List.filter_cons, h, if_true, List.length_cons] at hone ⊢
      have ht : List.filter AsyncOp.isWrite t = [] := by
        apply List.eq_nil_of_length_eq_zero
        omega
      simp [ht]
    · have hne : (x == op) = false := by simpa using hx
      have hmem' : op ∈ t := by
        rcases List.mem_cons.mp hmem with h1 | h1
        · exact absurd h1.symm hx
        · exact h1
      simp only [hne, Bool.false_eq_true, if_false, List.filter_cons]
      cases hw : x.isWrite
      · simp only [hw, List.filter_cons, Bool.false_eq_true, if_false] at hone ⊢
        exact ih hmem' hone
      · simp only [hw, List.filter_cons, if_true, List.length_cons] at hone
        have ht : List.filter AsyncOp.isWrite t = [] := by
          apply List.eq_nil_of_length_eq_zero
          omega
        have : op ∈ List.filter AsyncOp.isWrite t := List.mem_filter.mpr ⟨hmem', h⟩
        rw [ht] at this
        simp at this

theorem GetNextWritePacket_cons (impl : SocketImpl) (e : Packet × Nat)
    (rest : List (Packet × Nat)) (h : impl.OutgoingPackets = e :: rest) :
    impl.GetNextWritePacket = some (e.1,
      { impl with
        OutgoingPackets := rest
        Writing := true
        WritePacketHeader := headerOf e
        Stats := { impl.Stats with PacketsQueued := impl.Stats.PacketsQueued - 1 } }) := by
  unfold SocketImpl.GetNextWritePacket
  rw [h]
  rfl

theorem upd_close (s s1 : State)
    (hq : s1._SocketImpl.OutgoingPackets = s._SocketImpl.OutgoingPackets)
    (hw : s1._SocketImpl.Writing = s._SocketImpl.Writing)
    (hc : s1._SocketImpl.Closed = s._SocketImpl.Closed)
    (hp : s1.posted = s.posted) (ht : s1.trace = s.trace) :
    Upd s (close s1) s._SocketImpl.OutgoingPackets s._SocketImpl.Writing true s.posted
      (writes s1) (closeEvents s) := by
  rw [close_eq]
  unfold closeEvents closed SocketImpl.closed
  rw [← hc]
  cases h : s1._SocketImpl.Closed
  · simp only [Bool.false_eq_true, if_false]
    exact ⟨hq, hw, rfl, hp, rfl, by rw [← ht]⟩
  · simp only [if_true]
    exact ⟨hq, hw, h, hp, rfl, by rw [ht, List.append_nil]⟩

theorem writes_erase_sublist (s : State) (op : AsyncOp) :
    ((s.pending.erase op).filter AsyncOp.isWrite).Sublist (writes s) :=
  List.Sublist.filter _ (List.erase_sublist op s.pending)

theorem effect_send (cfg : Config) (s : State) (pack : Packet) :
    Effect cfg s (send cfg s pack) (.send pack) :=
  Effect.send pack ⟨rfl, rfl, rfl, rfl, rfl, by simp [send]⟩

theorem effect_close (cfg : Config) (s : State) : Effect cfg s (close s) .close :=
  Effect.closing _ (writes s) (by intro p h; cases h) (by intro h; cases h)
    (List.Sublist.refl _) (upd_close s s rfl rfl rfl rfl rfl)

theorem effect_run_posted (cfg : Config) (s s' : State)
    (h : step cfg s .run_posted = some s') : Effect cfg s s' .run_posted := by
  unfold step at h
  cases hp : s.posted with
  | nil => simp [hp] at h
  | cons e rest =>
    obtain ⟨compack, beforesize⟩ := e
    simp only [hp] at h
    unfold send_posted at h
    cases hw : s._SocketImpl.Writing
    · have hne : s._SocketImpl.OutgoingPackets ++ [(compack, beforesize)] ≠ [] := by simp
      obtain ⟨hd, tl, hcons⟩ := List.exists_cons_of_ne_nil hne
      simp only [SocketImpl.AddOutgoingPacket, SocketImpl.writing, hw, Bool.not_false, if_true,
        writeexpire_from_now] at h
      rw [GetNextWritePacket_cons _ hd tl hcons] at h
      simp only [writeheader, start, emit, Option.some.injEq] at h
      subst h
      exact Effect.start_chain (compack, beforesize) rest hd tl hp hw hcons
        ⟨rfl, rfl, rfl, rfl, by simp [writes, AsyncOp.isWrite], rfl⟩
    · simp only [SocketImpl.AddOutgoingPacket, SocketImpl.writing, hw, Bool.not_true,
        Bool.false_eq_true, if_false, Option.some.injEq] at h
      subst h
      exact Effect.enqueue (compack, beforesize) rest hp hw ⟨rfl, rfl, rfl, rfl, rfl, by simp⟩

theorem filter_erase_connect (l : List AsyncOp) :
    (l.erase AsyncOp.connect).filter AsyncOp.isWrite = l.filter AsyncOp.isWrite :=
  filter_erase_of_not l rfl

theorem filter_erase_readheader (l : List AsyncOp) :
    (l.erase AsyncOp.readheader).filter AsyncOp.isWrite = l.filter AsyncOp.isWrite :=
  filter_erase_of_not l rfl

theorem filter_erase_readbody (l : List AsyncOp) :
    (l.erase AsyncOp.readbody).filter AsyncOp.isWrite = l.filter AsyncOp.isWrite :=
  filter_erase_of_not l rfl

theorem decompress_snd (cfg : Config) (impl : SocketImpl) (packet : Packet) :
    (decompress cfg impl packet).2.OutgoingPackets = impl.OutgoingPackets ∧
    (decompress cfg impl packet).2.Writing = impl.Writing ∧
    (decompress cfg impl packet).2.Closed = impl.Closed := by
  simp only [decompress]
  split <;> exact ⟨rfl, rfl, rfl⟩

theorem ok_cond (ec : Nat) (c : Bool) (h : (decide (ec = 0) && !c) = true) :
    ec = 0 ∧ c = false := by
  cases c <;> simp_all

theorem effect_connect (cfg : Config) (s : State) (host port : Option String)
    (resolves : Bool) :
    Effect cfg s (connect cfg s host port resolves) (.connect host port resolves) := by
  unfold connect
  split
  · exact Effect.connect_call host port resolves
      [Event.OnConnect, Event.async_read_header cfg.sizeofPacketHeader]
      (by simp [Event.isWrite])
      ⟨rfl, rfl, rfl, rfl, by simp [handshake, readheader, readexpire_from_now, start, emit,
        writes, AsyncOp.isWrite],
       by simp [handshake, readheader, readexpire_from_now, start, emit]⟩
  · split
    · exact Effect.connect_call host port resolves [Event.async_connect]
        (by simp [Event.isWrite])
        ⟨rfl, rfl, rfl, rfl, by simp [start, emit, writes, AsyncOp.isWrite],
         by simp [start, emit]⟩
    · exact Effect.closing _ (writes s) (by intro p h; cases h) (by intro h; cases h)
        (List.Sublist.refl _) (upd_close s s rfl rfl rfl rfl rfl)

theorem effect_complete_connect (cfg : Config) (s s' : State) (ec : Nat)
    (h : step cfg s (.complete_connect ec) = some s') :
    Effect cfg s s' (.complete_connect ec) := by
  simp only [step, complete, Option.map_eq_some'] at h
  obtain ⟨s1, hs1, h⟩ := h
  split at hs1
  · injection hs1 with hs1
    subst hs1 h
    unfold on_connect
    split
    · rename_i hcond
      have hc : s._SocketImpl.Closed = false := by simpa [closed, SocketImpl.closed] using hcond
      refine Effect.read_progress _
        [Event.OnConnect, Event.async_read_header cfg.sizeofPacketHeader]
        (by intro p h; cases h) (by intro h; cases h) (by intro a b c h; cases h) hc
        (by simp [Event.isWrite]) ⟨rfl, rfl, hc, rfl, ?_, ?_⟩
      · simp [readheader, readexpire_from_now, start, emit, writes, AsyncOp.isWrite,
          filter_erase_connect]
      · simp [readheader, readexpire_from_now, start, emit]
    · exact Effect.closing _ _ (by intro p h; cases h) (by intro h; cases h)
        (writes_erase_sublist s _) (upd_close s _ rfl rfl rfl rfl rfl)
  · cases hs1

theorem effect_complete_readheader (cfg : Config) (s s' : State) (ec len : Nat)
    (header : PacketHeader) (h : step cfg s (.complete_readheader ec len header) = some s') :
    Effect cfg s s' (.complete_readheader ec len header) := by
  simp only [step, complete, Option.bind_eq_some] at h
  obtain ⟨s1, hs1, h⟩ := h
  split at hs1
  · injection hs1 with hs1
    subst hs1
    simp only [on_readheader] at h
    split at h
    · rename_i hcond
      have hc : s._SocketImpl.Closed = false := (ok_cond _ _ hcond).2
      simp only [assert, Option.map_eq_some'] at h
      obtain ⟨s2, hs2, h⟩ := h
      split at hs2
      · cases hs2
      · injection hs2 with hs2
        subst hs2 h
        refine Effect.read_progress _ [Event.async_read_body header.Payload_Length]
          (by intro p h; cases h) (by intro h; cases h) (by intro a b c h; cases h) hc
          (by simp [Event.isWrite]) ⟨rfl, rfl, hc, rfl, ?_, ?_⟩
        · simp [readbody, readexpire_from_now, start, emit, writes, AsyncOp.isWrite,
            filter_erase_readheader]
        · simp [readbody, readexpire_from_now, start, emit, SocketImpl.get_ReadBufferSize]
    · injection h with h
      subst h
      exact Effect.closing _ _ (by intro p h; cases h) (by intro h; cases h)
        (writes_erase_sublist s _) (upd_close s _ rfl rfl rfl rfl rfl)
  · cases hs1

theorem effect_complete_readbody (cfg : Config) (s s' : State) (ec len : Nat)
    (data : List Nat) (h : step cfg s (.complete_readbody ec len data) = some s') :
    Effect cfg s s' (.complete_readbody ec len data) := by
  simp only [step, complete, Option.bind_eq_some] at h
  obtain ⟨s1, hs1, h⟩ := h
  split at hs1
  · injection hs1 with hs1
    subst hs1
    simp only [on_readbody] at h
    split at h
    · rename_i hcond
      have hc : s._SocketImpl.Closed = false := (ok_cond _ _ hcond).2
      simp only [assert, Option.map_eq_some'] at h
      obtain ⟨s2, hs2, h⟩ := h
      split at hs2
      · cases hs2
      · injection hs2 with hs2
        subst hs2 h
        obtain ⟨d1, d2, d3⟩ := decompress_snd cfg
          { s._SocketImpl with IncomingBuffer := data }
          (SocketImpl.GetNextReadPacket { s._SocketImpl with IncomingBuffer := data })
        refine Effect.read_progress _
          [Event.OnReceive (decompress cfg { s._SocketImpl with IncomingBuffer := data }
            (SocketImpl.GetNextReadPacket { s._SocketImpl with IncomingBuffer := data })).1,
           Event.async_read_header cfg.sizeofPacketHeader]
          (by intro p h; cases h) (by intro h; cases h) (by intro a b c h; cases h) hc
          (by simp [Event.isWrite]) ⟨d1, d2, ?_, rfl, ?_, ?_⟩
        · exact d3.trans hc
        · simp [readheader, readexpire_from_now, start, emit, writes, AsyncOp.isWrite,
            filter_erase_readbody]
        · simp [readheader, readexpire_from_now, start, emit]
    · injection h with h
      subst h
      exact Effect.closing _ _ (by intro p h; cases h) (by intro h; cases h)
        (writes_erase_sublist s _) (upd_close s _ rfl rfl rfl rfl rfl)
  · cases hs1

theorem effect_complete_writeheader (cfg : Config) (s s' : State) (packet : Packet)
    (ec n : Nat) (h : step cfg s (.complete_writeheader packet ec n) = some s') :
    Effect cfg s s' (.complete_writeheader packet ec n) := by
  simp only [step, complete, Option.bind_eq_some] at h
  obtain ⟨s1, hs1, h⟩ := h
  split at hs1
  · rename_i hmem
    injection hs1 with hs1
    subst hs1
    simp only [on_writeheader] at h
    split at h
    · rename_i hcond
      obtain ⟨hec, hc⟩ := ok_cond _ _ hcond
      have hc : s._SocketImpl.Closed = false := hc
      simp only [assert, Option.map_eq_some'] at h
      obtain ⟨s2, hs2, h⟩ := h
      split at hs2
      · cases hs2
      · injection hs2 with hs2
        subst hs2 h hec
        refine Effect.header_written packet n hmem hc ⟨rfl, rfl, hc, rfl, ?_, ?_⟩
        · simp [writebody, start, emit, writes, AsyncOp.isWrite]
        · simp [writebody, start, emit]
    · injection h with h
      subst h
      exact Effect.closing _ _ (by intro p h; cases h) (by intro h; cases h)
        (writes_erase_sublist s _) (upd_close s _ rfl rfl rfl rfl rfl)
  · cases hs1

theorem effect_complete_writebody (cfg : Config) (s s' : State) (packet : Packet)
    (ec n : Nat) (h : step cfg s (.complete_writebody packet ec n) = some s') :
    Effect cfg s s' (.complete_writebody packet ec n) := by
  simp only [step, complete, Option.bind_eq_some] at h
  obtain ⟨s1, hs1, h⟩ := h
  split at hs1
  · rename_i hmem
    injection hs1 with hs1
    subst hs1
    simp only [on_writebody] at h
    split at h
    · rename_i hcond
      obtain ⟨hec, hc⟩ := ok_cond _ _ hcond
      have hc : s._SocketImpl.Closed = false := hc
      simp only [assert, Option.bind_eq_some] at h
      obtain ⟨s2, hs2, h⟩ := h
      split at hs2
      · cases hs2
      · injection hs2 with hs2
        subst hs2 hec
        by_cases hq : s._SocketImpl.OutgoingPackets = []
        · simp only [SocketImpl.OutGoingBuffer_empty, hq, List.isEmpty_nil, Bool.not_true,
            Bool.false_eq_true, if_false, writeexpire_from_now, SocketImpl.set_writing,
            Option.some.injEq] at h
          subst h
          exact Effect.body_written_idle packet n hmem hc hq ⟨rfl, rfl, hc, rfl, rfl, by simp⟩
        · obtain ⟨hd, tl, hcons⟩ := List.exists_cons_of_ne_nil hq
          have hne : (!s._SocketImpl.OutgoingPackets.isEmpty) = true := by simp [hcons]
          simp only [SocketImpl.OutGoingBuffer_empty, hne, if_true] at h
          rw [GetNextWritePacket_cons _ hd tl hcons] at h
          simp only [writeexpire_from_now, writeheader, start, emit, Option.some.injEq] at h
          subst h
          refine Effect.body_written_next packet n hd tl hmem hc hcons
            ⟨rfl, rfl, hc, rfl, ?_, rfl⟩
          simp [writes, AsyncOp.isWrite]
    · injection h with h
      subst h
      exact Effect.closing _ _ (by intro p h; cases h) (by intro h; cases h)
        (writes_erase_sublist s _) (upd_close s _ rfl rfl rfl rfl rfl)
  · cases hs1

theorem step_effect (cfg : Config) (s s' : State) (a : Action)
    (h : step cfg s a = some s') : Effect cfg s s' a := by
  cases a with
  | send pack =>
    simp only [step, Option.some.injEq] at h
    subst h
    exact effect_send cfg s pack
  | run_posted => exact effect_run_posted cfg s s' h
  | close =>
    simp only [step, Option.some.injEq] at h
    subst h
    exact effect_close cfg s
  | connect host port resolves =>
    simp only [step, Option.some.injEq] at h
    subst h
    exact effect_connect cfg s host port resolves
  | complete_connect ec => exact effect_complete_connect cfg s s' ec h
  | complete_readheader ec len header => exact effect_complete_readheader cfg s s' ec len header h
  | complete_readbody ec len data => exact effect_complete_readbody cfg s s' ec len data h
  | complete_writeheader packet ec n => exact effect_complete_writeheader cfg s s' packet ec n h
  | complete_writebody packet ec n => exact effect_complete_writebody cfg s s' packet ec n h

theorem inv_of_upd {s s' : State} {queue : List (Packet × Nat)} {writing closed : Bool}
    {posted : List (Packet × Nat)} {outstanding : List AsyncOp} {events : List Event}
    (u : Upd s s' queue writing closed posted outstanding events)
    (h1 : outstanding.length ≤ 1)
    (h2 : outstanding ≠ [] → writing = true)
    (h3 : closed = false → writing = true → outstanding ≠ [])
    (h4 : writing = false → queue = [])
    (h5 : closed = true → Event.OnClose ∈ s.trace ++ events) : Inv s' := by
  obtain ⟨uq, uw, uc, _, uwr, ut⟩ := u
  refine ⟨?_, ?_, ?_, ?_, ?_⟩
  · rw [uwr]; exact h1
  · rw [uwr, uw]; exact h2
  · rw [uwr, uw, uc]; exact h3
  · rw [uw, uq]; exact h4
  · rw [uc, ut]; exact h5

theorem mem_closeEvents (s : State) (hI : Inv s) : Event.OnClose ∈ s.trace ++ closeEvents s := by
  unfold closeEvents closed SocketImpl.closed
  cases hc : s._SocketImpl.Closed
  · simp
  · simpa using hI.notified hc

theorem inv_effect (cfg : Config) (s s' : State) (a : Action) (hI : Inv s)
    (hE : Effect cfg s s' a) : Inv s' := by
  have hI' := hI
  obtain ⟨i1, i2, i3, i4, i5⟩ := hI
  cases hE with
  | send pack u =>
    exact inv_of_upd u i1 i2 i3 i4 (by simpa using i5)
  | enqueue e rest hp hw u =>
    exact inv_of_upd u i1 (fun _ => rfl) (fun hc _ => i3 hc hw) (by simp) (by simpa using i5)
  | start_chain e rest h t hp hw hq u =>
    have hnone : writes s = [] := by
      by_contra hne
      rw [i2 hne] at hw
      cases hw
    exact inv_of_upd u (by simp [hnone]) (fun _ => rfl) (fun _ _ => by simp) (by simp)
      (by simpa using i5)
  | closing a outstanding _ _ hsub u =>
    exact inv_of_upd u (le_trans hsub.length_le i1)
      (fun hne => i2 (fun h0 => hne (by rw [h0] at hsub; exact List.sublist_nil.mp hsub)))
      (by simp) i4 (fun _ => mem_closeEvents s hI')
  | connect_call host port resolves events hev u =>
    exact inv_of_upd u i1 i2 i3 i4 (fun hc => List.mem_append_left _ (i5 hc))
  | read_progress a events _ _ _ hc hev u =>
    exact inv_of_upd u i1 i2 (fun _ => i3 hc) i4 (by simp)
  | header_written packet n hmem hc u =>
    obtain ⟨he, hw⟩ := filter_erase_of_write s.pending (.writeheader packet) rfl hmem i1
    have hwr : writes s ≠ [] := by unfold writes; rw [hw]; simp
    exact inv_of_upd u (by simp [he]) (fun _ => i2 hwr) (fun _ _ => by simp) i4 (by simp)
  | body_written_next packet n h t hmem hc hq u =>
    obtain ⟨he, hw⟩ := filter_erase_of_write s.pending (.writebody packet) rfl hmem i1
    exact inv_of_upd u (by simp [he]) (fun _ => rfl) (fun _ _ => by simp) (by simp) (by simp)
  | body_written_idle packet n hmem hc hq u =>
    obtain ⟨he, hw⟩ := filter_erase_of_write s.pending (.writebody packet) rfl hmem i1
    exact inv_of_upd u (by simp [he]) (by simp [he]) (by simp) (by simp) (by simp)

theorem inv_init : Inv State.init :=
  ⟨by decide, by decide, by decide, by decide, by decide⟩

theorem inv_run (cfg : Config) (acts : List Action) :
    ∀ s s', Inv s → run cfg s acts = some s' → Inv s' := by
  induction acts with
  | nil =>
    intro s s' hI h
    simp only [run, Option.some.injEq] at h
    subst h
    exact hI
  | cons a rest ih =>
    intro s s' hI h
    simp only [run, Option.bind_eq_some] at h
    obtain ⟨s1, h1, h2⟩ := h
    exact ih s1 s' (inv_effect cfg s s1 a hI (step_effect cfg s s1 a h1)) h2

theorem inv_reachable (cfg : Config) (s : State) (h : Reachable cfg s) : Inv s := by
  obtain ⟨acts, hrun⟩ := h
  exact inv_run cfg acts _ _ inv_init hrun

theorem closed_effect (cfg : Config) (s s' : State) (a : Action) (hE : Effect cfg s s' a)
    (hc : s._SocketImpl.Closed = true) : s'._SocketImpl.Closed = true := by
  cases hE with
  | send pack u => rw [u.closed_eq]; exact hc
  | enqueue e rest hp hw u => rw [u.closed_eq]; exact hc
  | start_chain e rest h t hp hw hq u => rw [u.closed_eq]; exact hc
  | closing a outstanding _ _ hsub u => exact u.closed_eq
  | connect_call host port resolves events hev u => rw [u.closed_eq]; exact hc
  | read_progress a events _ _ _ hc' hev u => rw [hc] at hc'; cases hc'
  | header_written packet n hmem hc' u => rw [hc] at hc'; cases hc'
  | body_written_next packet n h t hmem hc' hq u => rw [hc] at hc'; cases hc'
  | body_written_idle packet n hmem hc' hq u => rw [hc] at hc'; cases hc'

theorem closed_run (cfg : Config) (acts : List Action) :
    ∀ s s', run cfg s acts = some s' → s._SocketImpl.Closed = true →
      s'._SocketImpl.Closed = true := by
  induction acts with
  | nil =>
    intro s s' h hc
    simp only [run, Option.some.injEq] at h
    subst h
    exact hc
  | cons a rest ih =>
    intro s s' h hc
    simp only [run, Option.bind_eq_some] at h
    obtain ⟨s1, h1, h2⟩ := h
    exact ih s1 s' h2 (closed_effect cfg s s1 a (step_effect cfg s s1 a h1) hc)

theorem wire_owed_of_upd {s s' : State} {queue : List (Packet × Nat)} {writing closed : Bool}
    {posted : List (Packet × Nat)} {outstanding : List AsyncOp} {events : List Event}
    (u : Upd s s' queue writing closed posted outstanding events) :
    wire s' ++ owed s' = wire s ++ events.filter Event.isWrite ++
      (outstanding.flatMap AsyncOp.owed ++ queue.flatMap frame ++ posted.flatMap frame) := by
  obtain ⟨uq, _, _, up, uwr, ut⟩ := u
  unfold wire owed
  rw [uq, up, uwr, ut, List.filter_append]

theorem filter_isWrite_nil (events : List Event)
    (h : ∀ e ∈ events, e.isWrite = false ∧ e ≠ Event.OnClose) :
    events.filter Event.isWrite = [] := by
  rw [List.filter_eq_nil_iff]
  intro e he
  rw [(h e he).1]
  simp

theorem sent_append (cfg : Config) (xs ys : List Action) :
    sent cfg (xs ++ ys) = sent cfg xs ++ sent cfg ys := by
  induction xs with
  | nil => rfl
  | cons a rest ih =>
    cases a <;> simp [sent, ih]

theorem sent_single (cfg : Config) (a : Action) (h : ∀ pack, a ≠ .send pack) :
    sent cfg [a] = [] := by
  cases a <;> simp [sent] at h ⊢

theorem wire_effect (cfg : Config) (s s' : State) (a : Action) (hI : Inv s)
    (hE : Effect cfg s s' a) (hopen : s'._SocketImpl.Closed = false) :
    wire s' ++ owed s' = wire s ++ owed s ++ (sent cfg [a]).flatMap frame := by
  obtain ⟨i1, i2, i3, i4, i5⟩ := hI
  cases hE with
  | send pack u =>
    rw [wire_owed_of_upd u]
    simp [owed, sent, List.flatMap_append]
  | enqueue e rest hp hw u =>
    rw [wire_owed_of_upd u]
    simp [owed, sent, hp, List.flatMap_append]
  | start_chain e rest h t hp hw hq u =>
    have hnone : writes s = [] := by
      by_contra hne
      rw [i2 hne] at hw
      cases hw
    rw [i4 hw] at hq
    simp only [List.nil_append, List.cons.injEq] at hq
    obtain ⟨rfl, rfl⟩ := hq
    rw [wire_owed_of_upd u]
    simp [owed, sent, hp, hnone, i4 hw, frame, Event.isWrite, AsyncOp.owed]
  | closing a outstanding _ _ hsub u =>
    rw [u.closed_eq] at hopen
    cases hopen
  | connect_call host port resolves events hev u =>
    rw [wire_owed_of_upd u, filter_isWrite_nil events hev]
    simp [owed, sent]
  | read_progress a events hs _ _ hc hev u =>
    rw [wire_owed_of_upd u, filter_isWrite_nil events hev, sent_single cfg a hs]
    simp [owed]
  | header_written packet n hmem hc u =>
    obtain ⟨he, hw⟩ := filter_erase_of_write s.pending (.writeheader packet) rfl hmem i1
    rw [wire_owed_of_upd u]
    simp [owed, sent, writes, he, hw, Event.isWrite, AsyncOp.owed]
  | body_written_next packet n h t hmem hc hq u =>
    obtain ⟨he, hw⟩ := filter_erase_of_write s.pending (.writebody packet) rfl hmem i1
    rw [wire_owed_of_upd u]
    simp [owed, sent, writes, he, hw, hq, Event.isWrite, AsyncOp.owed, frame]
  | body_written_idle packet n hmem hc hq u =>
    obtain ⟨he, hw⟩ := filter_erase_of_write s.pending (.writebody packet) rfl hmem i1
    rw [wire_owed_of_upd u]
    simp [owed, sent, writes, he, hw, hq, AsyncOp.owed]

theorem wire_run (cfg : Config) (acts : List Action) :
    ∀ s s', Inv s → run cfg s acts = some s' → s'._SocketImpl.Closed = false →
      wire s' ++ owed s' = wire s ++ owed s ++ (sent cfg acts).flatMap frame := by
  induction acts with
  | nil =>
    intro s s' _ h _
    simp only [run, Option.some.injEq] at h
    subst h
    simp [sent]
  | cons a rest ih =>
    intro s s' hI h hopen
    simp only [run, Option.bind_eq_some] at h
    obtain ⟨s1, h1, h2⟩ := h
    have hE := step_effect cfg s s1 a h1
    have hopen1 : s1._SocketImpl.Closed = false := by
      cases hc : s1._SocketImpl.Closed
      · rfl
      · rw [closed_run cfg rest s1 s' h2 hc] at hopen
        cases hopen
    rw [ih s1 s' (inv_effect cfg s s1 a hI hE) h2 hopen, wire_effect cfg s s1 a hI hE hopen1]
    have : sent cfg (a :: rest) = sent cfg [a] ++ sent cfg rest := sent_append cfg [a] rest
    rw [this, List.flatMap_append, List.append_assoc]

theorem run_append (cfg : Config) (xs ys : List Action) :
    ∀ s, run cfg s (xs ++ ys) = (run cfg s xs).bind fun s1 => run cfg s1 ys := by
  induction xs with
  | nil => intro s; rfl
  | cons a rest ih =>
    intro s
    simp only [List.cons_append, run]
    cases step cfg s a with
    | none => rfl
    | some s1 => simp only [Option.some_bind]; exact ih s1

theorem not_mem_of_writes_nil (s : State) (op : AsyncOp) (hw : op.isWrite = true)
    (h : writes s = []) : op ∉ s.pending := by
  intro hmem
  have : op ∈ writes s := List.mem_filter.mpr ⟨hmem, hw⟩
  rw [h] at this
  cases this

theorem erase_appended (l : List AsyncOp) (op : AsyncOp) (h : op ∉ l) :
    (l ++ [op]).erase op = l := by
  rw [List.erase_append_right _ h]
  simp

theorem send_one (cfg : Config) (s : State) (pack : Packet) (hI : Idle s) :
    ∃ s', run cfg s (sequential cfg [pack]) = some s' ∧ Idle s' ∧
      s'.trace = s.trace ++ frame (entry cfg pack) := by
  obtain ⟨hc, hp, hw, hnw, hq⟩ := hI
  have hn1 : AsyncOp.writeheader (compressPacket cfg pack) ∉ s.pending :=
    not_mem_of_writes_nil s _ rfl hw
  have hn2 : AsyncOp.writebody (compressPacket cfg pack) ∉ s.pending :=
    not_mem_of_writes_nil s _ rfl hw
  refine ⟨{ s with
      _SocketImpl := { ((compress cfg s._SocketImpl pack).2.AddOutgoingPacket
          (compressPacket cfg pack) pack.Payload_Length) with
        OutgoingPackets := []
        Writing := false
        WritePacketHeader := headerOf (entry cfg pack)
        Stats := { (compress cfg s._SocketImpl pack).2.Stats with
          PacketsQueued := (compress cfg s._SocketImpl pack).2.Stats.PacketsQueued + 1 - 1 } }
      trace := s.trace ++ frame (entry cfg pack) }, ?_, ?_, rfl⟩
  · simp only [sequential, List.flatMap_cons, List.flatMap_nil, List.append_nil, run, step, send,
      hp, List.nil_append, Option.some_bind, send_posted, SocketImpl.AddOutgoingPacket,
      SocketImpl.writing, compress, SocketImpl.UpdateWriteStats, hnw, Bool.not_false, if_true,
      writeexpire_from_now, hq]
    simp only [SocketImpl.GetNextWritePacket, writeheader, start, emit, Option.some_bind,
      complete, List.mem_append, List.mem_singleton, or_true, if_true, erase_appended _ _ hn1,
      on_writeheader, closed, SocketImpl.closed, hc, assert, decide_True, Bool.not_true,
      Bool.and_false, Bool.false_eq_true, if_false, Option.map_some', writebody,
      erase_appended _ _ hn2, on_writebody, Bool.not_false, Bool.and_true,
      writeexpire_from_now, SocketImpl.OutGoingBuffer_empty, List.isEmpty_nil,
      SocketImpl.set_writing, Bool.and_self]
    simp [frame, entry, headerOf, Packet.bytes]
  · exact ⟨hc, hp, hw, rfl, rfl⟩

theorem sequential_cons (cfg : Config) (pack : Packet) (ps : List Packet) :
    sequential cfg (pack :: ps) = sequential cfg [pack] ++ sequential cfg ps := by
  simp [sequential]

theorem send_all (cfg : Config) (ps : List Packet) :
    ∀ s, Idle s → ∃ s', run cfg s (sequential cfg ps) = some s' ∧ Idle s' ∧
      s'.trace = s.trace ++ (ps.map (entry cfg)).flatMap frame := by
  induction ps with
  | nil =>
    intro s hI
    exact ⟨s, rfl, hI, by simp⟩
  | cons pack rest ih =>
    intro s hI
    obtain ⟨s1, h1, hI1, ht1⟩ := send_one cfg s pack hI
    obtain ⟨s2, h2, hI2, ht2⟩ := ih s1 hI1
    refine ⟨s2, ?_, hI2, ?_⟩
    · rw [sequential_cons, run_append, h1]
      exact h2
    · rw [ht2, ht1]
      simp [List.append_assoc]

/-- The sequential schedule of any list of packets runs to the end on a fresh socket: the
socket stays open, nothing is left to write, and the trace is header and body of each
packet in call order. -/
theorem send_all_delivers (cfg : Config) (ps : List Packet) :
    ∃ s, run cfg State.init (sequential cfg ps) = some s ∧ closed s = false ∧
      s.posted = [] ∧ writes s = [] ∧ s.trace = (ps.map (entry cfg)).flatMap frame := by
  have h0 : Idle State.init := ⟨rfl, rfl, rfl, rfl, rfl⟩
  obtain ⟨s, h1, hI, ht⟩ := send_all cfg ps State.init h0
  exact ⟨s, h1, hI.open_, hI.posted_nil, hI.writes_nil, by rw [ht]; rfl⟩


theorem header_write_alone (cfg : Config) (s s' : State) (a : Action) (hI : Inv s)
    (hE : Effect cfg s s' a) (header : PacketHeader)
    (ht : s'.trace = s.trace ++ [Event.async_write_header header]) :
    ∃ packet, writes s' = [AsyncOp.writeheader packet] := by
  have key : ∀ events : List Event, s'.trace = s.trace ++ events →
      events = [Event.async_write_header header] := by
    intro events h
    rw [h] at ht
    exact List.append_cancel_left ht
  cases hE with
  | send pack u => cases key _ u.trace_eq
  | enqueue e rest hp hw u => cases key _ u.trace_eq
  | start_chain e rest h t hp hw hq u =>
    have hnone : writes s = [] := by
      by_contra hne
      rw [hI.flag hne] at hw
      cases hw
    exact ⟨h.1, by rw [u.writes_eq, hnone]; rfl⟩
  | closing a outstanding _ _ hsub u =>
    have := key _ u.trace_eq
    unfold closeEvents at this
    split at this <;> cases this
  | connect_call host port resolves events hev u =>
    have := key _ u.trace_eq
    subst this
    have := (hev _ (List.mem_singleton.mpr rfl)).1
    cases this
  | read_progress a events _ _ _ hc hev u =>
    have := key _ u.trace_eq
    subst this
    have := (hev _ (List.mem_singleton.mpr rfl)).1
    cases this
  | header_written packet n hmem hc u => cases key _ u.trace_eq
  | body_written_next packet n h t hmem hc hq u =>
    obtain ⟨he, _⟩ := filter_erase_of_write s.pending (.writebody packet) rfl hmem hI.one
    exact ⟨h.1, by rw [u.writes_eq, he]; rfl⟩
  | body_written_idle packet n hmem hc hq u => cases key _ u.trace_eq


/-- C4: in every state a fresh socket reaches while it stays open, the writes started on the
stream followed by the writes still owed (the body of the frame in flight, the frames of
the queue, the frames of the handlers not run yet) are header and body of each packet
passed to `send`, in call order; at most one write is outstanding; when no handler and no
write is left, the writes started are exactly those frames; and a step that starts a
header write leaves that write as the only outstanding one, so the body write before it
has completed. -/
theorem fifo_wire_order (cfg : Config) (acts : List Action) (s : State)
    (hrun : run cfg State.init acts = some s) (hopen : closed s = false) :
    wire s ++ owed s = (sent cfg acts).flatMap frame ∧
    (writes s).length ≤ 1 ∧
    (s.posted = [] → writes s = [] → wire s = (sent cfg acts).flatMap frame) ∧
    (∀ a s' header, step cfg s a = some s' →
      s'.trace = s.trace ++ [Event.async_write_header header] →
      ∃ packet, writes s' = [AsyncOp.writeheader packet]) := by
  have hI : Inv s := inv_run cfg acts _ _ inv_init hrun
  have hw := wire_run cfg acts _ _ inv_init hrun hopen
  have h0 : wire State.init ++ owed State.init = [] := by decide
  rw [h0, List.nil_append] at hw
  refine ⟨hw, hI.one, ?_, ?_⟩
  · intro hp hwr
    have hnw : s._SocketImpl.Writing = false := by
      cases hW : s._SocketImpl.Writing
      · rfl
      · exact absurd hwr (hI.chain hopen hW)
    have : owed s = [] := by
      unfold owed
      rw [hwr, hp, hI.idle hnw]
      rfl
    rw [this, List.append_nil] at hw
    exact hw
  · intro a s' header hstep ht
    exact header_write_alone cfg s s' a hI (step_effect cfg s s' a hstep) header ht

/-- C4, at three packets sent while earlier writes are still in flight. -/
theorem fifo_wire_order_witness :
    (wire quiescent3 ++ owed quiescent3 = (sent cfg64 schedule3).flatMap frame ∧
     (writes quiescent3).length ≤ 1 ∧
     (quiescent3.posted = [] → writes quiescent3 = [] →
       wire quiescent3 = (sent cfg64 schedule3).flatMap frame) ∧
     (∀ a s' header, step cfg64 quiescent3 a = some s' →
       s'.trace = quiescent3.trace ++ [Event.async_write_header header] →
       ∃ packet, writes s' = [AsyncOp.writeheader packet])) ∧
    wire quiescent3 = frame (compA, 3) ++ frame (compB, 2) ++ frame (compC, 1) :=
  ⟨fifo_wire_order cfg64 schedule3 quiescent3 (by rfl) (by rfl), by decide⟩

theorem writing_cleared (cfg : Config) (s s' : State) (a : Action) (hE : Effect cfg s s' a)
    (h1 : s._SocketImpl.Writing = true) (h2 : s'._SocketImpl.Writing = false) :
    ∃ packet n, a = .complete_writebody packet 0 n ∧ s._SocketImpl.OutgoingPackets = [] ∧
      s._SocketImpl.Closed = false := by
  cases hE with
  | send pack u => rw [u.writing_eq, h1] at h2; cases h2
  | enqueue e rest hp hw u => rw [u.writing_eq] at h2; cases h2
  | start_chain e rest h t hp hw hq u => rw [u.writing_eq] at h2; cases h2
  | closing a outstanding _ _ hsub u => rw [u.writing_eq, h1] at h2; cases h2
  | connect_call host port resolves events hev u => rw [u.writing_eq, h1] at h2; cases h2
  | read_progress a events _ _ _ hc hev u => rw [u.writing_eq, h1] at h2; cases h2
  | header_written packet n hmem hc u => rw [u.writing_eq, h1] at h2; cases h2
  | body_written_next packet n h t hmem hc hq u => rw [u.writing_eq] at h2; cases h2
  | body_written_idle packet n hmem hc hq u => exact ⟨packet, n, rfl, hq, hc⟩

theorem run_posted_effect (cfg : Config) (s s' : State) (hE : Effect cfg s s' .run_posted) :
    (s._SocketImpl.Writing = true ∧ s'.trace = s.trace ∧ writes s' = writes s) ∨
    (s._SocketImpl.Writing = false ∧ ∃ h : Packet × Nat,
      s'.trace = s.trace ++ [Event.async_write_header (headerOf h)] ∧
      writes s' = writes s ++ [AsyncOp.writeheader h.1]) := by
  cases hE with
  | enqueue e rest hp hw u =>
    exact Or.inl ⟨hw, by rw [u.trace_eq, List.append_nil], u.writes_eq⟩
  | start_chain e rest h t hp hw hq u =>
    exact Or.inr ⟨hw, h, u.trace_eq, u.writes_eq⟩
  | closing a outstanding _ hne hsub u => exact absurd rfl hne
  | read_progress a events _ hne _ hc hev u => exact absurd rfl hne

/-- C5 (amended): in every state a fresh socket reaches, at most one write is outstanding;
an outstanding write implies `writing`; while the socket is open, `writing` holds exactly
when a write is outstanding; a posted handler that finds `writing` set starts no write and
one that finds it clear starts one header write; and a step clears `writing` only as the
successful completion of a body write on an open socket with the queue empty. -/
theorem single_writer (cfg : Config) (s : State) (hR : Reachable cfg s) :
    (writes s).length ≤ 1 ∧
    (writes s ≠ [] → s._SocketImpl.writing = true) ∧
    (closed s = false → (s._SocketImpl.writing = true ↔ writes s ≠ [])) ∧
    (∀ s', step cfg s .run_posted = some s' →
      (s._SocketImpl.writing = true ∧ s'.trace = s.trace ∧ writes s' = writes s) ∨
      (s._SocketImpl.writing = false ∧ ∃ h : Packet × Nat,
        s'.trace = s.trace ++ [Event.async_write_header (headerOf h)] ∧
        writes s' = writes s ++ [AsyncOp.writeheader h.1])) ∧
    (∀ a s', step cfg s a = some s' → s._SocketImpl.writing = true →
      s'._SocketImpl.writing = false →
      ∃ packet n, a = .complete_writebody packet 0 n ∧ s._SocketImpl.OutgoingPackets = [] ∧
        closed s = false) := by
  have hI := inv_reachable cfg s hR
  refine ⟨hI.one, hI.flag, fun hc => ⟨hI.chain hc, hI.flag⟩, ?_, ?_⟩
  · intro s' hstep
    exact run_posted_effect cfg s s' (step_effect cfg s s' _ hstep)
  · intro a s' hstep h1 h2
    exact writing_cleared cfg s s' a (step_effect cfg s s' a hstep) h1 h2

/-- C5 (amended), at the state where the header write of a first packet is outstanding. -/
theorem single_writer_witness :
    (writes inFlight).length ≤ 1 ∧
    (writes inFlight ≠ [] → inFlight._SocketImpl.writing = true) ∧
    (closed inFlight = false → (inFlight._SocketImpl.writing = true ↔ writes inFlight ≠ [])) ∧
    (∀ s', step cfg64 inFlight .run_posted = some s' →
      (inFlight._SocketImpl.writing = true ∧ s'.trace = inFlight.trace ∧
        writes s' = writes inFlight) ∨
      (inFlight._SocketImpl.writing = false ∧ ∃ h : Packet × Nat,
        s'.trace = inFlight.trace ++ [Event.async_write_header (headerOf h)] ∧
        writes s' = writes inFlight ++ [AsyncOp.writeheader h.1])) ∧
    (∀ a s', step cfg64 inFlight a = some s' → inFlight._SocketImpl.writing = true →
      s'._SocketImpl.writing = false →
      ∃ packet n, a = .complete_writebody packet 0 n ∧
        inFlight._SocketImpl.OutgoingPackets = [] ∧ closed inFlight = false) :=
  single_writer cfg64 inFlight ⟨scheduleInFlight, by rfl⟩

/-- C5 (as stated) fails: after a header write that completes with an error the socket is
closed, no write is outstanding, and `writing` is still set. -/
theorem writing_set_without_write :
    (run cfg64 State.init scheduleWriteFails).map
        (fun s => (s._SocketImpl.writing, writes s, closed s))
      = some (true, [], true) := by
  rfl

theorem complete_of_mem (s : State) (op : AsyncOp) (h : op ∈ s.pending) :
    complete s op = some { s with pending := s.pending.erase op } := by
  unfold complete
  rw [if_pos h]

theorem read_error_closes (cfg : Config) (s : State) (hR : Reachable cfg s) (ec len : Nat)
    (header : PacketHeader) (data : List Nat) (hec : ec ≠ 0) :
    (AsyncOp.readheader ∈ s.pending →
      ∃ s', step cfg s (.complete_readheader ec len header) = some s' ∧ closed s' = true ∧
        Event.OnClose ∈ s'.trace ∧ s'.trace = s.trace ++ closeEvents s ∧
        s'.pending = s.pending.erase AsyncOp.readheader) ∧
    (AsyncOp.readbody ∈ s.pending →
      ∃ s', step cfg s (.complete_readbody ec len data) = some s' ∧ closed s' = true ∧
        Event.OnClose ∈ s'.trace ∧ s'.trace = s.trace ++ closeEvents s ∧
        s'.pending = s.pending.erase AsyncOp.readbody) := by
  have hI := inv_reachable cfg s hR
  constructor
  · intro hmem
    obtain ⟨s', h1, h2, h3, h4, _⟩ :=
      on_readheader_error cfg { s with pending := s.pending.erase AsyncOp.readheader }
        ec len header hec
    refine ⟨s', ?_, h2, ?_, h3, h4⟩
    · simp only [step, complete_of_mem s _ hmem, Option.some_bind]
      exact h1
    · rw [h3]
      exact mem_closeEvents s hI
  · intro hmem
    obtain ⟨s', h1, h2, h3, h4, _⟩ :=
      on_readbody_error cfg { s with pending := s.pending.erase AsyncOp.readbody }
        ec len data hec
    refine ⟨s', ?_, h2, ?_, h3, h4⟩
    · simp only [step, complete_of_mem s _ hmem, Option.some_bind]
      exact h1
    · rw [h3]
      exact mem_closeEvents s hI

theorem error_of_short (ec len requested : Nat) (hc : AsyncReadCompletion ec len requested)
    (hbad : ec ≠ 0 ∨ len < requested) : ec ≠ 0 := by
  rcases hbad with h | h
  · exact h
  · intro h0
    have := hc h0
    omega

/-- C7: in every state a fresh socket reaches, a header read or body read completion of
`async_read` that reports a stream error, or fewer bytes than requested (`sizeof` the
wire header, respectively the read-buffer size taken from the header), leaves the socket
closed with `OnClose` in the trace; the handler appends `OnClose` and the shutdown when
the socket was still open and nothing otherwise, so `OnReceive` is not invoked for that
frame and no further read is started. -/
theorem framing_error_closes (cfg : Config) (s : State) (hR : Reachable cfg s) (ec len : Nat)
    (header : PacketHeader) (data : List Nat) :
    (AsyncOp.readheader ∈ s.pending →
      AsyncReadCompletion ec len cfg.sizeofPacketHeader →
      ec ≠ 0 ∨ len < cfg.sizeofPacketHeader →
      ∃ s', step cfg s (.complete_readheader ec len header) = some s' ∧ closed s' = true ∧
        Event.OnClose ∈ s'.trace ∧ s'.trace = s.trace ++ closeEvents s ∧
        s'.pending = s.pending.erase AsyncOp.readheader) ∧
    (AsyncOp.readbody ∈ s.pending →
      AsyncReadCompletion ec len s._SocketImpl.get_ReadBufferSize →
      ec ≠ 0 ∨ len < s._SocketImpl.get_ReadBufferSize →
      ∃ s', step cfg s (.complete_readbody ec len data) = some s' ∧ closed s' = true ∧
        Event.OnClose ∈ s'.trace ∧ s'.trace = s.trace ++ closeEvents s ∧
        s'.pending = s.pending.erase AsyncOp.readbody) := by
  constructor
  · intro hmem hc hbad
    exact (read_error_closes cfg s hR ec len header data
      (error_of_short ec len _ hc hbad)).1 hmem
  · intro hmem hc hbad
    exact (read_error_closes cfg s hR ec len header data
      (error_of_short ec len _ hc hbad)).2 hmem

/-- C7, at a header read that fails with error code 104 and no bytes, and at a body read
that ends with error code 2 after 1 of 4 bytes. -/
theorem framing_error_closes_witness :
    (∃ s', step cfg64 readingHeader (.complete_readheader 104 0 headerA) = some s' ∧
        closed s' = true ∧ Event.OnClose ∈ s'.trace ∧
        s'.trace = readingHeader.trace ++ closeEvents readingHeader ∧
        s'.pending = readingHeader.pending.erase AsyncOp.readheader) ∧
    (∃ s', step cfg64 readingBody (.complete_readbody 2 1 [0]) = some s' ∧
        closed s' = true ∧ Event.OnClose ∈ s'.trace ∧
        s'.trace = readingBody.trace ++ closeEvents readingBody ∧
        s'.pending = readingBody.pending.erase AsyncOp.readbody) :=
  ⟨(framing_error_closes cfg64 readingHeader ⟨[.connect none none true], by rfl⟩ 104 0
      headerA []).1 (by decide) (by intro h; cases h) (by decide),
   (framing_error_closes cfg64 readingBody
      ⟨[.connect none none true, .complete_readheader 0 12 headerA], by rfl⟩ 2 1
      headerA [0]).2 (by decide) (by intro h; cases h) (by decide)⟩

/-- C9 (amended): from a state where `closed()` is true, a `send` call, a further `close`
and every read, write or connect completion leave the socket closed and append nothing to
the trace; the handler posted by `send` leaves it closed and appends nothing when
`writing` is set, and appends the start of one header write when `writing` is clear. -/
theorem closed_terminal (cfg : Config) (s s' : State) (a : Action)
    (hc : closed s = true) (hstep : step cfg s a = some s')
    (hcall : ∀ host port resolves, a ≠ .connect host port resolves) :
    closed s' = true ∧
    (a ≠ .run_posted → s'.trace = s.trace ∧ (writes s').length ≤ (writes s).length) ∧
    (a = .run_posted →
      (s._SocketImpl.writing = true ∧ s'.trace = s.trace) ∨
      (s._SocketImpl.writing = false ∧
        ∃ h : Packet × Nat, s'.trace = s.trace ++ [Event.async_write_header (headerOf h)])) := by
  have hc' : s._SocketImpl.Closed = true := hc
  have hE := step_effect cfg s s' a hstep
  refine ⟨closed_effect cfg s s' a hE hc', ?_, ?_⟩
  · intro hne
    cases hE with
    | send pack u => exact ⟨by rw [u.trace_eq, List.append_nil], by rw [u.writes_eq]⟩
    | enqueue e rest hp hw u => exact absurd rfl hne
    | start_chain e rest h t hp hw hq u => exact absurd rfl hne
    | closing a outstanding _ _ hsub u =>
      constructor
      · rw [u.trace_eq]
        simp [closeEvents, hc]
      · rw [u.writes_eq]
        exact hsub.length_le
    | connect_call host port resolves events hev u => exact absurd rfl (hcall host port resolves)
    | read_progress a events _ _ _ hopen hev u => rw [hc'] at hopen; cases hopen
    | header_written packet n hmem hopen u => rw [hc'] at hopen; cases hopen
    | body_written_next packet n h t hmem hopen hq u => rw [hc'] at hopen; cases hopen
    | body_written_idle packet n hmem hopen hq u => rw [hc'] at hopen; cases hopen
  · intro ha
    subst ha
    rcases run_posted_effect cfg s s' hE with ⟨h1, h2, _⟩ | ⟨h1, h, h2, _⟩
    · exact Or.inl ⟨h1, h2⟩
    · exact Or.inr ⟨h1, h, h2⟩

/-- C9 (amended), at a header read that completes after the application closed the socket. -/
theorem closed_terminal_witness :
    closed afterLateRead = true ∧
    (Action.complete_readheader 0 12 headerA ≠ .run_posted →
      afterLateRead.trace = closedReading.trace ∧
        (writes afterLateRead).length ≤ (writes closedReading).length) ∧
    (Action.complete_readheader 0 12 headerA = .run_posted →
      (closedReading._SocketImpl.writing = true ∧ afterLateRead.trace = closedReading.trace) ∨
      (closedReading._SocketImpl.writing = false ∧
        ∃ h : Packet × Nat, afterLateRead.trace
          = closedReading.trace ++ [Event.async_write_header (headerOf h)])) :=
  closed_terminal cfg64 closedReading afterLateRead
    (.complete_readheader 0 12 headerA) (by rfl) (by rfl) (by intro _ _ _ h; cases h)

/-- C9 (as stated) fails: after `close()`, a `send` call and its posted handler start a
header write on the stream of the closed socket. -/
theorem send_after_close_writes :
    (run cfg64 State.init [.close]).map closed = some true ∧
    (run cfg64 State.init [.close, .send packetA, .run_posted]).map State.trace
      = some [Event.OnClose, Event.shutdown,
          Event.async_write_header
            { Payload_Length := 4, UncompressedLength := 3, Packet_Type := 5 }] ∧
    (run cfg64 State.init [.close, .send packetA, .run_posted]).map State.pending
      = some [AsyncOp.writeheader compA] := by
  refine ⟨rfl, rfl, rfl⟩

end TCPSocket
